import Mathlib

/-!
Verification of the encrypted-VOIP client core: the chunked RSA key-wrap
framing and AES-GCM audio layer of `CryptoService`
(src/client/src/services/cryptoService.js), and the `VoiceEngine` /
`SignalingManager` peer-session state machine (the client voice module).

Bytes are modelled as `Nat` (values < 256 in real buffers), buffers as
`List Nat`.  The asymmetric (RSA-OAEP) and symmetric (AES-GCM) primitives
are native-crypto calls in the source; they enter the embedding as
abstract function parameters, with their inverse laws taken as hypotheses
where a round trip is proved.  All container reads go through `List.take`
/ `List.drop` / lookups, which are total and never access beyond the end
of a list.
-/

namespace VOIP

/-- `MAX_CHUNK_SIZE` from `CryptoService.encryptAudio`: RSA-OAEP with a
2048-bit key can encrypt at most ~190 bytes per chunk. -/
def MAX_CHUNK_SIZE : Nat := 190

/-- The chunk-splitting loop of `CryptoService.encryptAudio`:
`for (let i = 0; i < audioBytes.length; i += MAX_CHUNK_SIZE)
   chunks.push(audioBytes.slice(i, i + MAX_CHUNK_SIZE))`. -/
def chunkify (bytes : List Nat) : List (List Nat) :=
  if bytes = [] then []
  else bytes.take MAX_CHUNK_SIZE :: chunkify (bytes.drop MAX_CHUNK_SIZE)
termination_by bytes.length
decreasing_by
  simp only [List.length_drop, MAX_CHUNK_SIZE]
  have hb : bytes ≠ [] := by assumption
  have hpos : 0 < bytes.length := List.length_pos.mpr hb
  omega

/-- `view.setUint32(0, n, true)` writing a 4-byte little-endian length
prefix (DataView truncates to 32 bits). -/
def u32le (n : Nat) : List Nat :=
  [n % 256, n / 256 % 256, n / 65536 % 256, n / 16777216 % 256]

/-- `view.getUint32(0, true)` reading a 4-byte little-endian length. -/
def readU32le (b : List Nat) : Nat :=
  b.getD 0 0 + 256 * b.getD 1 0 + 65536 * b.getD 2 0 + 16777216 * b.getD 3 0

/-- `CryptoService.encryptAudio` (the spec's `wrapKey`): split the
plaintext into chunks of at most 190 bytes, encrypt each chunk with the
recipient's RSA-OAEP public key (abstract parameter `enc`), and emit
`[chunk1_length][chunk1_data][chunk2_length][chunk2_data]...` with 4-byte
little-endian length prefixes, flattened into one buffer. -/
def encryptAudio (enc : List Nat → List Nat) (audio : List Nat) : List Nat :=
  ((chunkify audio).map (fun c => u32le (enc c).length ++ enc c)).flatten

/-- The chunk-parsing loop of `CryptoService.decryptAudio`: while bytes
remain, read a 4-byte little-endian length (error
`Invalid encrypted data format` if fewer than 4 bytes remain), then take
that many bytes as the next ciphertext chunk (error
`Invalid chunk length` if the declared length reads past the end). -/
def parseChunks (bytes : List Nat) : Except String (List (List Nat)) :=
  if bytes = [] then .ok []
  else if bytes.length < 4 then .error "Invalid encrypted data format"
  else
    let len := readU32le (bytes.take 4)
    let rest := bytes.drop 4
    if rest.length < len then .error "Invalid chunk length"
    else
      match parseChunks (rest.drop len) with
      | .ok cs => .ok (rest.take len :: cs)
      | .error e => .error e
termination_by bytes.length
decreasing_by
  simp only [List.length_drop]
  omega

/-- `CryptoService.decryptAudio` (the spec's `unwrapKey`): parse the
length-prefixed chunk stream, decrypt each chunk with the local RSA-OAEP
private key (abstract parameter `dec`), and concatenate the plaintexts. -/
def decryptAudio (dec : List Nat → List Nat) (payload : List Nat) :
    Except String (List Nat) :=
  match parseChunks payload with
  | .ok chunks => .ok ((chunks.map dec).flatten)
  | .error e => .error e

/-- `CryptoService.encryptAudioAES`: draw a 12-byte IV (randomness is an
explicit parameter here), AES-GCM-encrypt (abstract parameter `aesEnc`,
whose output carries the 16-byte auth tag appended as WebCrypto does),
and return `iv ++ ciphertextWithTag`. -/
def encryptAudioAES (aesEnc : List Nat → List Nat → List Nat → List Nat)
    (key iv pt : List Nat) : List Nat :=
  iv ++ aesEnc key iv pt

/-- `CryptoService.decryptAudioAES`: split the first 12 bytes as the IV
and the remainder as ciphertext-plus-tag, and AES-GCM-decrypt (abstract
parameter `aesDec`; `none` models the thrown auth/decrypt error). -/
def decryptAudioAES (aesDec : List Nat → List Nat → List Nat → Option (List Nat))
    (key payload : List Nat) : Option (List Nat) :=
  aesDec key (payload.take 12) (payload.drop 12)

/-- The exact shape of a parseable wrapped-key payload: a (possibly
empty) sequence of blocks, each a 4-byte length prefix followed by
exactly that many bytes.  A payload is NOT of this shape precisely when,
scanning from the front, at some point fewer than 4 bytes remain for a
length prefix, or a declared chunk length would read past the end of the
remaining buffer. -/
inductive WellFormedWrap : List Nat → Prop
  | nil : WellFormedWrap []
  | cons (pre body rest : List Nat) (hpre : pre.length = 4)
      (hbody : body.length = readU32le pre) (h : WellFormedWrap rest) :
      WellFormedWrap (pre ++ (body ++ rest))

/-- Association-list update mirroring JS `Map.prototype.set`: replace
the value if the key is present, else append a new entry. -/
def setEntry {α : Type} (k : String) (v : α) : List (String × α) → List (String × α)
  | [] => [(k, v)]
  | (q, w) :: rest => if q = k then (k, v) :: rest else (q, w) :: setEntry k v rest

/-- Association-list lookup mirroring JS `Map.prototype.get` (`none` is
JS `undefined`). -/
def getEntry {α : Type} (k : String) : List (String × α) → Option α
  | [] => none
  | (q, w) :: rest => if q = k then some w else getEntry k rest

/-- JS `Map.prototype.delete`. -/
def eraseEntry {α : Type} (k : String) (l : List (String × α)) : List (String × α) :=
  l.filter (fun e => e.1 != k)

/-- JS `Set.prototype.add` (no duplicates, insertion order kept). -/
def addSet (p : String) (s : List String) : List String :=
  if p ∈ s then s else s ++ [p]

/-- An `RTCPeerConnection` as `VoiceEngine` uses it: an identity (so
that distinct `new RTCPeerConnection(...)` calls are distinguishable)
plus the `publicKey` property the engine attaches to it. -/
structure PeerConn where
  connId : Nat
  publicKey : Option String
deriving DecidableEq

/-- An `RTCDataChannel` as `VoiceEngine` reads it: `readyState` and
`bufferedAmount`. -/
structure DataChannel where
  readyState : String
  bufferedAmount : Nat
deriving DecidableEq

/-- The per-peer `SignalingManager` fields driving perfect negotiation
(src/unnamed/part_002, `SignalingManager` constructor). -/
structure SigMgrState where
  polite : Bool
  makingOffer : Bool
  ignoreOffer : Bool
  isSettingRemoteAnswerPending : Bool
deriving DecidableEq

/-- The `VoiceEngine` per-room mutable state: the maps keyed by peer
socket id, the set of peers whose key exchange was ACKed
(`secureChannels`), and a counter giving fresh `RTCPeerConnection`
identities.  `closedConns` records which connections had `close()`
called on them. -/
structure VoiceState where
  peerConnections : List (String × PeerConn)
  dataChannels : List (String × DataChannel)
  signalingManagers : List (String × SigMgrState)
  peerSessionKeys : List (String × List Nat)
  secureChannels : List String
  peerSpeakingState : List (String × Bool)
  peerMuteState : List (String × Bool)
  audioNodes : List String
  closedConns : List Nat
  nextConnId : Nat
deriving DecidableEq

/-- The `{type: "audio", iv: [...], data: [...]}` data-channel frame. -/
structure AudioMsg where
  iv : List Nat
  data : List Nat
deriving DecidableEq

/-- `VoiceEngine.createPeerConnection(peerId, odileId, username,
publicKey, isInitiator)`: construct a fresh `RTCPeerConnection` and
store it, create a `SignalingManager` with `polite = !isInitiator` and
store it, and if initiator create the audio data channel (unordered,
no retransmits) and register it via `setupDataChannel`.  There is no
guard against an existing entry for `peerId`; `Map.set` overwrites. -/
def createPeerConnection (st : VoiceState) (peerId : String)
    (publicKey : Option String) (isInitiator : Bool) : VoiceState :=
  let conn : PeerConn := { connId := st.nextConnId, publicKey := publicKey }
  let st1 := { st with
    peerConnections := setEntry peerId conn st.peerConnections,
    nextConnId := st.nextConnId + 1 }
  let mgr : SigMgrState :=
    { polite := !isInitiator, makingOffer := false, ignoreOffer := false,
      isSettingRemoteAnswerPending := false }
  let st2 := { st1 with signalingManagers := setEntry peerId mgr st1.signalingManagers }
  if isInitiator then
    { st2 with dataChannels :=
        setEntry peerId { readyState := "connecting", bufferedAmount := 0 } st2.dataChannels }
  else st2

/-- The `user-joined` socket handler of `VoiceEngine.setupSocketListeners`:
`await this.createPeerConnection(socketId, userId, username, publicKey,
false)` — note the literal `false` for `isInitiator`. -/
def handleUserJoined (st : VoiceState) (socketId : String)
    (publicKey : Option String) : VoiceState :=
  createPeerConnection st socketId publicKey false

/-- `VoiceEngine.closePeerConnection(peerId)`: close and drop the
`RTCPeerConnection`, close and drop the data channel, drop the audio
node and the speaking state.  (It does NOT touch `peerSessionKeys` or
`secureChannels`.) -/
def closePeerConnection (st : VoiceState) (peerId : String) : VoiceState :=
  let closed := match getEntry peerId st.peerConnections with
    | some c => [c.connId]
    | none => []
  let st1 := { st with
    peerConnections := eraseEntry peerId st.peerConnections,
    closedConns := st.closedConns ++ closed }
  let st2 := { st1 with dataChannels := eraseEntry peerId st1.dataChannels }
  { st2 with
    audioNodes := st2.audioNodes.filter (fun q => q != peerId),
    peerSpeakingState := eraseEntry peerId st2.peerSpeakingState }

/-- The `user-left` socket handler of `VoiceEngine.setupSocketListeners`:
`closePeerConnection(socketId)` plus dropping the peer speaking and mute
state. -/
def handleUserLeft (st : VoiceState) (socketId : String) : VoiceState :=
  let st1 := closePeerConnection st socketId
  { st1 with
    peerSpeakingState := eraseEntry socketId st1.peerSpeakingState,
    peerMuteState := eraseEntry socketId st1.peerMuteState }

/-- The loop body of `VoiceEngine.broadcastEncryptedAudio` for one
`(peerId, dataChannel)` entry: skip peers without an ACKed secure
channel, skip channels that are not open or are congested
(`bufferedAmount >= 16384`), skip peers without a session key; otherwise
AES-encrypt the frame and send `{type: "audio", iv, data}` where `iv` is
the first 12 bytes of the encrypted buffer and `data` the rest. -/
def broadcastSendTo (aesEnc : List Nat → List Nat → List Nat → List Nat)
    (ivFor : String → List Nat) (st : VoiceState) (audio : List Nat)
    (entry : String × DataChannel) : Option (String × AudioMsg) :=
  if entry.1 ∈ st.secureChannels then
    if entry.2.readyState = "open" ∧ entry.2.bufferedAmount < 16384 then
      match getEntry entry.1 st.peerSessionKeys with
      | some key =>
        let buf := encryptAudioAES aesEnc key (ivFor entry.1) audio
        some (entry.1, { iv := buf.take 12, data := buf.drop 12 })
      | none => none
    else none
  else none

/-- `VoiceEngine.broadcastEncryptedAudio(audioData)`: iterate over all
data channels, producing the list of `(peerId, audio message)` actually
sent.  `ivFor` supplies the fresh random 12-byte nonce drawn for each
encryption. -/
def broadcastEncryptedAudio (aesEnc : List Nat → List Nat → List Nat → List Nat)
    (ivFor : String → List Nat) (st : VoiceState) (audio : List Nat) :
    List (String × AudioMsg) :=
  st.dataChannels.filterMap (broadcastSendTo aesEnc ivFor st audio)

/-- `VoiceEngine.handleIncomingAudio(msg, peerId)`: if no session key is
stored for the peer, return (frame dropped); otherwise recombine
`iv ++ data` and AES-decrypt it (a decryption failure is caught and the
frame dropped).  The result is the decrypted frame handed to playback,
or `none` when the frame is dropped.  (The speaking-detection
bookkeeping, which does not affect whether the frame is played, is not
modelled.) -/
def handleIncomingAudio (aesDec : List Nat → List Nat → List Nat → Option (List Nat))
    (st : VoiceState) (peerId : String) (msg : AudioMsg) : Option (List Nat) :=
  match getEntry peerId st.peerSessionKeys with
  | none => none
  | some key => decryptAudioAES aesDec key (msg.iv ++ msg.data)

/-- A parsed data-channel message (`setupDataChannel`, `onmessage`). -/
inductive DCMessage where
  | key (payload : List Nat)
  | keyAck
  | audio (msg : AudioMsg)
  | other
deriving DecidableEq

/-- Result of one `onmessage` dispatch: the updated engine state,
whether a `key-ack` was sent back, and the decrypted audio frame handed
to playback (if any). -/
structure MsgResult where
  st : VoiceState
  ackSent : Bool
  played : Option (List Nat)
deriving DecidableEq

/-- The `onmessage` dispatch of `VoiceEngine.setupDataChannel`:
- `key`: unwrap the session key (`decryptKey`, abstracting
  `cryptoService.decryptSessionKey`; `none` is the caught error case),
  store it under `peerId` (overwriting any previous key — there is no
  guard), send `key-ack`, add the peer to `secureChannels`;
- `key-ack`: add the peer to `secureChannels`;
- `audio`: hand to `handleIncomingAudio`;
- anything else: ignored. -/
def handleDataChannelMessage (decryptKey : List Nat → Option (List Nat))
    (aesDec : List Nat → List Nat → List Nat → Option (List Nat))
    (st : VoiceState) (peerId : String) (msg : DCMessage) : MsgResult :=
  match msg with
  | .key payload =>
    match decryptKey payload with
    | some k =>
      { st := { st with
          peerSessionKeys := setEntry peerId k st.peerSessionKeys,
          secureChannels := addSet peerId st.secureChannels },
        ackSent := true, played := none }
    | none => { st := st, ackSent := false, played := none }
  | .keyAck =>
    { st := { st with secureChannels := addSet peerId st.secureChannels },
      ackSent := false, played := none }
  | .audio m =>
    { st := st, ackSent := false, played := handleIncomingAudio aesDec st peerId m }
  | .other => { st := st, ackSent := false, played := none }

/-- Outcome of `SignalingManager.handleOffer`: whether the offer was
ignored, whether the local in-flight offer was rolled back first,
whether the remote descriptor was applied, and whether an answer was
sent. -/
structure OfferOutcome where
  ignored : Bool
  rolledBack : Bool
  remoteApplied : Bool
  answerSent : Bool
deriving DecidableEq

/-- `SignalingManager.handleOffer(offer)`:
`offerCollision = makingOffer || signalingState !== "stable"`;
`ignoreOffer = !polite && offerCollision`; if ignoring, return without
touching the connection; otherwise roll back first when there was a
collision (polite side), then apply the remote descriptor, create the
answer and emit it. -/
def handleOffer (mgr : SigMgrState) (signalingState : String) :
    SigMgrState × OfferOutcome :=
  let offerCollision := mgr.makingOffer || signalingState != "stable"
  let mgr1 := { mgr with ignoreOffer := !mgr.polite && offerCollision }
  if mgr1.ignoreOffer then
    (mgr1, { ignored := true, rolledBack := false, remoteApplied := false,
             answerSent := false })
  else
    (mgr1, { ignored := false, rolledBack := offerCollision, remoteApplied := true,
             answerSent := true })

/-- The `onnegotiationneeded` handler installed by the `SignalingManager`
constructor: `makingOffer = true`; try to set the local description and
emit the offer (`descrFails = true` models `setLocalDescription`
throwing, which is caught and logged); the `finally` block resets
`makingOffer = false` on both exit paths.  Returns the final manager
state and whether an offer was emitted. -/
def onNegotiationNeeded (mgr : SigMgrState) (descrFails : Bool) :
    SigMgrState × Bool :=
  let mgr1 := { mgr with makingOffer := true }
  let attempt : SigMgrState × Bool :=
    if descrFails then (mgr1, false) else (mgr1, true)
  ({ attempt.1 with makingOffer := false }, attempt.2)

/-- The initial `VoiceEngine` maps (constructor): all empty. -/
def emptyVoiceState : VoiceState :=
  { peerConnections := [], dataChannels := [], signalingManagers := [],
    peerSessionKeys := [], secureChannels := [], peerSpeakingState := [],
    peerMuteState := [], audioNodes := [], closedConns := [], nextConnId := 0 }

/-- A state in which peer `p1` has a stored session key but no
`key-ack` yet (`secureChannels` empty): exactly the initiating side
after sending its key message and before the ACK arrives. -/
def preAckState : VoiceState :=
  { emptyVoiceState with
    peerConnections := [("p1", { connId := 0, publicKey := some "pk" })],
    dataChannels := [("p1", { readyState := "open", bufferedAmount := 0 })],
    peerSessionKeys := [("p1", [7])] }

/-- A state in which peer `p1` is fully established: connection, open
channel, session key, and ACKed secure channel. -/
def establishedState : VoiceState :=
  { preAckState with secureChannels := ["p1"], nextConnId := 1 }

/-- Concatenating the chunks produced by the splitting loop restores the
original buffer. -/
theorem chunkify_flatten (k : List Nat) : (chunkify k).flatten = k := by
  induction k using chunkify.induct with
  | case1 => simp [chunkify]
  | case2 k h ih => rw [chunkify, if_neg h, List.flatten_cons, ih, List.take_append_drop]

/-- Every chunk produced by the splitting loop has at most
`MAX_CHUNK_SIZE` bytes. -/
theorem chunkify_length_le (k : List Nat) :
    ∀ c ∈ chunkify k, c.length ≤ MAX_CHUNK_SIZE := by
  induction k using chunkify.induct with
  | case1 => simp [chunkify]
  | case2 k h ih =>
    rw [chunkify, if_neg h]
    intro c hc
    rcases List.mem_cons.mp hc with hc | hc
    · subst hc; simp [List.length_take]
    · exact ih c hc

/-- Reading back a 4-byte little-endian length prefix restores the
written value, for values below 2^32 (DataView truncates beyond). -/
theorem readU32le_u32le (n : Nat) (h : n < 4294967296) : readU32le (u32le n) = n := by
  simp [u32le, readU32le]
  omega

/-- The parsing loop of `decryptAudio` inverts the framing loop of
`encryptAudio`: a concatenation of 4-byte-length-prefixed blocks parses
back to exactly those blocks. -/
theorem parseChunks_encode (es : List (List Nat))
    (h : ∀ e ∈ es, e.length < 4294967296) :
    parseChunks ((es.map (fun e => u32le e.length ++ e)).flatten) = .ok es := by
  induction es with
  | nil => simp [parseChunks]
  | cons e es ih =>
    have he : e.length < 4294967296 := h e (List.mem_cons_self e es)
    have hrest : ∀ x ∈ es, x.length < 4294967296 :=
      fun x hx => h x (List.mem_cons_of_mem e hx)
    simp only [List.map_cons, List.flatten_cons, List.append_assoc]
    rw [parseChunks]
    have hne : u32le e.length ++ (e ++ (es.map (fun x => u32le x.length ++ x)).flatten) ≠ [] := by
      simp [u32le]
    rw [if_neg hne]
    have hlen4 : (u32le e.length).length = 4 := by simp [u32le]
    have hlenge : ¬ (u32le e.length ++ (e ++ (es.map (fun x => u32le x.length ++ x)).flatten)).length < 4 := by
      simp [u32le]
    rw [if_neg hlenge]
    have htake : (u32le e.length ++ (e ++ (es.map (fun x => u32le x.length ++ x)).flatten)).take 4 = u32le e.length := by
      rw [← hlen4, List.take_left]
    have hdrop : (u32le e.length ++ (e ++ (es.map (fun x => u32le x.length ++ x)).flatten)).drop 4 = e ++ (es.map (fun x => u32le x.length ++ x)).flatten := by
      rw [← hlen4, List.drop_left]
    simp only [htake, hdrop, readU32le_u32le e.length he]
    have hnotlt : ¬ (e ++ (es.map (fun x => u32le x.length ++ x)).flatten).length < e.length := by
      simp
    rw [if_neg hnotlt]
    rw [List.take_left, List.drop_left, ih hrest]

/-- C3: for every symmetric key byte string and every matching RSA-OAEP
key pair (modelled as an abstract chunk cipher `enc` with inverse `dec`,
whose ciphertext chunks fit a 4-byte length prefix), unwrapping the
wrapped key is a byte-identical round trip:
`unwrapKey (wrapKey k pub) priv = k`, where `wrapKey` splits the
plaintext into chunks of at most 190 bytes, encrypts each independently,
and prefixes each ciphertext chunk with its 4-byte little-endian
length. -/
theorem key_wrap_roundtrip (enc dec : List Nat → List Nat) (k : List Nat)
    (hinv : ∀ c ∈ chunkify k, dec (enc c) = c)
    (hlen : ∀ c ∈ chunkify k, (enc c).length < 4294967296) :
    decryptAudio dec (encryptAudio enc k) = .ok k := by
  unfold decryptAudio encryptAudio
  have hmap : (chunkify k).map (fun c => u32le (enc c).length ++ enc c)
      = ((chunkify k).map enc).map (fun e => u32le e.length ++ e) := by
    simp [List.map_map, Function.comp]
  rw [hmap, parseChunks_encode ((chunkify k).map enc) (by
    intro e hee
    rcases List.mem_map.mp hee with ⟨c, hc, rfl⟩
    exact hlen c hc)]
  have hid : (((chunkify k).map enc).map dec) = chunkify k := by
    rw [List.map_map]
    have hcg := List.map_congr_left (l := chunkify k) (f := dec ∘ enc) (g := id) ?_
    · rw [hcg, List.map_id]
    · intro a ha
      simp [Function.comp, hinv a ha]
  simp only [hid, chunkify_flatten]

/-- Witness for C3: the identity chunk cipher on the key `[1, 2, 3]`. -/
theorem key_wrap_roundtrip_witness :
    (∀ c ∈ chunkify [1, 2, 3], id (id c) = c) ∧
    decryptAudio id (encryptAudio id [1, 2, 3]) = .ok [1, 2, 3] :=
  ⟨fun _ _ => rfl,
   key_wrap_roundtrip id id [1, 2, 3] (fun _ _ => rfl)
     (fun c hc => lt_of_le_of_lt (chunkify_length_le [1, 2, 3] c hc) (by norm_num [MAX_CHUNK_SIZE]))⟩

/-- If the chunk-parsing loop succeeds, the payload was well formed; so
on any malformed payload it must fail. -/
theorem parseChunks_ok_wellFormed (buf : List Nat) :
    (∃ cs, parseChunks buf = .ok cs) → WellFormedWrap buf := by
  induction buf using parseChunks.induct with
  | case1 => intro _; exact WellFormedWrap.nil
  | case2 b hne hlt =>
    rintro ⟨cs, hok⟩
    rw [parseChunks, if_neg hne, if_pos hlt] at hok
    exact absurd hok (by simp)
  | case3 b hne hlt len rest hover =>
    rintro ⟨cs, hok⟩
    have hover2 : (List.drop 4 b).length < readU32le (List.take 4 b) := hover
    rw [parseChunks, if_neg hne, if_neg hlt] at hok
    simp only [if_pos hover2] at hok
    exact absurd hok (by simp)
  | case4 b hne hlt len rest hnover cs0 hinner ih =>
    intro _
    have hwfrest : WellFormedWrap ((List.drop 4 b).drop (readU32le (List.take 4 b))) :=
      ih ⟨cs0, hinner⟩
    have hno : ¬ (List.drop 4 b).length < readU32le (List.take 4 b) := hnover
    have hb4 : ¬ b.length < 4 := hlt
    have hrw : b = List.take 4 b ++ ((List.drop 4 b).take (readU32le (List.take 4 b)) ++ (List.drop 4 b).drop (readU32le (List.take 4 b))) := by
      rw [List.take_append_drop, List.take_append_drop]
    rw [hrw]
    refine WellFormedWrap.cons _ _ _ ?_ ?_ hwfrest
    · simp only [List.length_take]
      omega
    · simp only [List.length_take, List.length_drop] at hno ⊢
      omega
  | case5 b hne hlt len rest hnover e herr ih =>
    rintro ⟨cs, hok⟩
    have hno : ¬ (List.drop 4 b).length < readU32le (List.take 4 b) := hnover
    have herr2 : parseChunks (List.drop (readU32le (List.take 4 b)) (List.drop 4 b)) = Except.error e := herr
    rw [parseChunks, if_neg hne, if_neg hlt] at hok
    simp only [if_neg hno, herr2] at hok
    exact absurd hok (by simp)

/-- A well-formed wrapped-key payload is empty or at least 4 bytes
long. -/
theorem wellFormedWrap_length (buf : List Nat) (h : WellFormedWrap buf) :
    buf = [] ∨ 4 ≤ buf.length := by
  cases h with
  | nil => exact Or.inl rfl
  | cons pre body rest hpre hbody hwf =>
    right
    simp [hpre]

/-- C4: for every wrapped-key payload in which some declared 4-byte
chunk length would read past the end of the remaining buffer, or fewer
than 4 bytes remain for a length prefix (that is, any payload that is
not `WellFormedWrap`), `unwrapKey` (= `decryptAudio`) fails with a
format error, whatever the chunk decryption function is.  All buffer
reads in the embedding are `List.take`/`List.drop`, which never access
beyond the end of the buffer. -/
theorem unwrap_malformed_fails (dec : List Nat → List Nat) (buf : List Nat)
    (h : ¬ WellFormedWrap buf) : ∃ e, decryptAudio dec buf = .error e := by
  cases hp : parseChunks buf with
  | ok cs => exact absurd (parseChunks_ok_wellFormed buf ⟨cs, hp⟩) h
  | error e => exact ⟨e, by simp [decryptAudio, hp]⟩

/-- Witness for C4: the 2-byte payload `[1, 2]` (too short for even one
length prefix) makes `unwrapKey` fail. -/
theorem unwrap_malformed_fails_witness :
    (¬ WellFormedWrap [1, 2]) ∧ ∃ e, decryptAudio id [1, 2] = .error e := by
  have hnw : ¬ WellFormedWrap [1, 2] := by
    intro h
    rcases wellFormedWrap_length [1, 2] h with h2 | h2
    · simp at h2
    · simp at h2
  exact ⟨hnw, unwrap_malformed_fails id [1, 2] hnw⟩

/-- C5: for every AES-GCM session key and plaintext frame,
`decrypt (encrypt p k) k = p`: `encryptAudioAES` takes a fresh 12-byte
nonce (an explicit parameter here) and returns
`nonce ++ ciphertext-plus-16-byte-tag`, and `decryptAudioAES` splits the
first 12 bytes back off as the nonce.  The AES-GCM primitive is abstract
(`aesEnc`/`aesDec`) with its inverse law and tag size as hypotheses. -/
theorem aes_audio_roundtrip (aesEnc : List Nat → List Nat → List Nat → List Nat)
    (aesDec : List Nat → List Nat → List Nat → Option (List Nat))
    (key iv pt : List Nat) (hiv : iv.length = 12)
    (htag : (aesEnc key iv pt).length = pt.length + 16)
    (hinv : aesDec key iv (aesEnc key iv pt) = some pt) :
    decryptAudioAES aesDec key (encryptAudioAES aesEnc key iv pt) = some pt := by
  unfold decryptAudioAES encryptAudioAES
  have htk : (iv ++ aesEnc key iv pt).take 12 = iv := by
    rw [← hiv]; exact List.take_left iv (aesEnc key iv pt)
  have hdr : (iv ++ aesEnc key iv pt).drop 12 = aesEnc key iv pt := by
    rw [← hiv]; exact List.drop_left iv (aesEnc key iv pt)
  rw [htk, hdr, hinv]

/-- Updating a JS map and reading the same key back yields the new
value. -/
theorem getEntry_setEntry_self {α : Type} (k : String) (v : α)
    (l : List (String × α)) : getEntry k (setEntry k v l) = some v := by
  induction l with
  | nil => simp [setEntry, getEntry]
  | cons e rest ih =>
    obtain ⟨q, w⟩ := e
    by_cases hq : q = k
    · simp [setEntry, getEntry, hq]
    · simp [setEntry, getEntry, hq, ih]

/-- Adding an element to a JS set makes it a member. -/
theorem mem_addSet_self (p : String) (s : List String) : p ∈ addSet p s := by
  unfold addSet
  split
  · assumption
  · simp

/-- The peer-connection map and connection counter after
`createPeerConnection`, independent of the initiator flag. -/
theorem createPeerConnection_conns (st : VoiceState) (p : String)
    (pk : Option String) (i : Bool) :
    (createPeerConnection st p pk i).peerConnections =
      setEntry p { connId := st.nextConnId, publicKey := pk } st.peerConnections ∧
    (createPeerConnection st p pk i).nextConnId = st.nextConnId + 1 := by
  unfold createPeerConnection
  cases i <;> simp

/-- C1 counterexample: in `preAckState` — the initiating side after it
stored the session key for peer `p1` but before `p1`'s `key-ack`
arrived, so `secureAck` is NOT true — an inbound `audio` message is
nevertheless decrypted and handed to playback, because
`handleIncomingAudio` only checks for a stored session key, not for
`secureChannels` membership.  This refutes the receiver half of the
claim that audio arriving before `secureAck` is rejected. -/
theorem audio_gate_receiver_counterexample :
    handleIncomingAudio (fun _ _ c => some c) preAckState "p1"
      { iv := List.replicate 12 0, data := [1, 2, 3] } = some [1, 2, 3] ∧
    "p1" ∉ preAckState.secureChannels := by
  refine ⟨?_, ?_⟩ <;> decide

/-- C1 (amended): the sender half holds — `broadcastEncryptedAudio`
never encrypts and sends an audio frame to a peer that is not in
`secureChannels` — but the receiver drops an inbound `audio` message
only when NO session key is stored for that peer; on the initiating
side, where the key is stored before the `key-ack` arrives, audio
arriving before `secureAck` is decrypted and played. -/
theorem audio_gating_amended (aesEnc : List Nat → List Nat → List Nat → List Nat)
    (ivFor : String → List Nat)
    (aesDec : List Nat → List Nat → List Nat → Option (List Nat))
    (st : VoiceState) (audio : List Nat) (p : String) :
    (p ∉ st.secureChannels →
      ∀ m ∈ broadcastEncryptedAudio aesEnc ivFor st audio, m.1 ≠ p) ∧
    (getEntry p st.peerSessionKeys = none →
      ∀ msg : AudioMsg, handleIncomingAudio aesDec st p msg = none) := by
  constructor
  · intro hp m hm
    rcases List.mem_filterMap.mp hm with ⟨entry, _, hf⟩
    by_cases h1 : entry.1 ∈ st.secureChannels
    · intro hmp
      apply hp
      rw [← hmp]
      unfold broadcastSendTo at hf
      rw [if_pos h1] at hf
      by_cases h2 : entry.2.readyState = "open" ∧ entry.2.bufferedAmount < 16384
      · rw [if_pos h2] at hf
        cases hk : getEntry entry.1 st.peerSessionKeys with
        | none => rw [hk] at hf; exact absurd hf (by simp)
        | some key =>
          rw [hk] at hf
          simp only [Option.some.injEq] at hf
          rw [← hf]
          exact h1
      · rw [if_neg h2] at hf
        exact absurd hf (by simp)
    · unfold broadcastSendTo at hf
      rw [if_neg h1] at hf
      exact absurd hf (by simp)
  · intro hk msg
    unfold handleIncomingAudio
    rw [hk]

/-- Witness for C1 (amended): in `preAckState` the only data channel
belongs to `p1`, which has an open channel and a session key but no
ACK — the broadcast sends it nothing; and with no stored key at all,
every inbound audio message is dropped. -/
theorem audio_gating_amended_witness :
    (∀ m ∈ broadcastEncryptedAudio (fun _ _ pt => pt)
        (fun _ => List.replicate 12 0) preAckState [1], m.1 ≠ "p1") ∧
    (∀ msg : AudioMsg,
      handleIncomingAudio (fun _ _ c => some c) emptyVoiceState "p1" msg = none) :=
  ⟨(audio_gating_amended (fun _ _ pt => pt) (fun _ => List.replicate 12 0)
      (fun _ _ c => some c) preAckState [1] "p1").1 (by decide),
   (audio_gating_amended (fun _ _ pt => pt) (fun _ => List.replicate 12 0)
      (fun _ _ c => some c) emptyVoiceState [1] "p1").2 (by decide)⟩

/-- C2: `handleOffer` computes
`collision = makingOffer || signalingState != "stable"`; an impolite
manager facing a collision drops the offer with `ignoreOffer = true`,
applying no remote descriptor and sending no answer; a polite manager
facing a collision rolls its in-flight offer back and then applies the
remote descriptor and answers; every non-ignored offer gets the remote
descriptor applied and an answer sent; and an offer is only ignored by
an impolite manager in a collision. -/
theorem handleOffer_glare (mgr : SigMgrState) (s : String) :
    (mgr.polite = false → (mgr.makingOffer || s != "stable") = true →
      (handleOffer mgr s).2.ignored = true ∧ (handleOffer mgr s).1.ignoreOffer = true ∧
      (handleOffer mgr s).2.remoteApplied = false ∧ (handleOffer mgr s).2.answerSent = false) ∧
    (mgr.polite = true → (mgr.makingOffer || s != "stable") = true →
      (handleOffer mgr s).2.rolledBack = true ∧ (handleOffer mgr s).2.remoteApplied = true ∧
      (handleOffer mgr s).2.answerSent = true ∧ (handleOffer mgr s).2.ignored = false) ∧
    ((handleOffer mgr s).2.ignored = false →
      (handleOffer mgr s).2.remoteApplied = true ∧ (handleOffer mgr s).2.answerSent = true) ∧
    ((handleOffer mgr s).2.ignored = true →
      mgr.polite = false ∧ (mgr.makingOffer || s != "stable") = true) := by
  obtain ⟨pol, mo, ig, pend⟩ := mgr
  cases pol <;> cases mo <;> cases hs : s != "stable" <;>
    simp [handleOffer, hs]

/-- Witness for C2: with `makingOffer = true` (a collision) and the
signaling state `stable`, the impolite manager ignores the offer and
the polite manager rolls back and answers. -/
theorem handleOffer_glare_witness :
    ((handleOffer ⟨false, true, false, false⟩ "stable").2.ignored = true ∧
      (handleOffer ⟨false, true, false, false⟩ "stable").1.ignoreOffer = true ∧
      (handleOffer ⟨false, true, false, false⟩ "stable").2.remoteApplied = false ∧
      (handleOffer ⟨false, true, false, false⟩ "stable").2.answerSent = false) ∧
    ((handleOffer ⟨true, true, false, false⟩ "stable").2.rolledBack = true ∧
      (handleOffer ⟨true, true, false, false⟩ "stable").2.remoteApplied = true ∧
      (handleOffer ⟨true, true, false, false⟩ "stable").2.answerSent = true ∧
      (handleOffer ⟨true, true, false, false⟩ "stable").2.ignored = false) :=
  ⟨(handleOffer_glare ⟨false, true, false, false⟩ "stable").1 rfl (by decide),
   (handleOffer_glare ⟨true, true, false, false⟩ "stable").2.1 rfl (by decide)⟩

/-- C6 counterexample: when the `user-joined` handler runs for a new
remote peer (here `p2` joining an empty room view), the
`SignalingManager` it creates has `polite = true` — the role is polite,
not impolite as claimed: the handler passes `isInitiator = false` and
the constructor receives `polite = !isInitiator`. -/
theorem peer_joined_role_counterexample :
    (getEntry "p2" (handleUserJoined emptyVoiceState "p2" (some "pk")).signalingManagers).map
        SigMgrState.polite = some true ∧
    (getEntry "p2" (handleUserJoined emptyVoiceState "p2" (some "pk")).signalingManagers).map
        SigMgrState.polite ≠ some false := by
  refine ⟨?_, ?_⟩ <;> decide

/-- C6 (amended): the `user-joined` handler creates the negotiation
state machine with role POLITE (it passes `isInitiator = false`, and
`polite = !isInitiator`); the impolite role is created on the initiator
path (`room-participants`, joining a room with existing peers, passes
`isInitiator = true`). -/
theorem peer_joined_role_amended (st : VoiceState) (p : String)
    (pk : Option String) :
    getEntry p (handleUserJoined st p pk).signalingManagers =
      some { polite := true, makingOffer := false, ignoreOffer := false,
             isSettingRemoteAnswerPending := false } ∧
    getEntry p (createPeerConnection st p pk true).signalingManagers =
      some { polite := false, makingOffer := false, ignoreOffer := false,
             isSettingRemoteAnswerPending := false } := by
  constructor
  · unfold handleUserJoined createPeerConnection
    simp [getEntry_setEntry_self]
  · unfold createPeerConnection
    simp [getEntry_setEntry_self]

/-- C7 (code bug): handling `user-left` for peer `p1` closes and
removes the transport and the data channel, but the session key stored
for `p1` is NOT discarded — `closePeerConnection` never touches
`peerSessionKeys` (contradicting the comment in `stopAudioCapture`
saying keys are cleared in `closePeerConnection`). -/
theorem teardown_retains_session_key :
    getEntry "p1" (handleUserLeft establishedState "p1").peerConnections = none ∧
    (0 : Nat) ∈ (handleUserLeft establishedState "p1").closedConns ∧
    getEntry "p1" (handleUserLeft establishedState "p1").dataChannels = none ∧
    getEntry "p1" (handleUserLeft establishedState "p1").peerSessionKeys = some [7] := by
  refine ⟨?_, ?_, ?_, ?_⟩ <;> decide

/-- C8 counterexample state: one `createPeerConnection` call for `p1`. -/
def dupCallState1 : VoiceState :=
  createPeerConnection emptyVoiceState "p1" (some "pk") true

/-- C8 counterexample state: a duplicate `createPeerConnection` call
for the same peer id. -/
def dupCallState2 : VoiceState :=
  createPeerConnection dupCallState1 "p1" (some "pk") true

/-- C8 counterexample: invoking `createPeerConnection` a second time
for a peer id that already has a live peer link is NOT a no-op: it
constructs a fresh `RTCPeerConnection` (identity 1, replacing identity
0) and overwrites the map entry, changing the state. -/
theorem duplicate_create_counterexample :
    getEntry "p1" dupCallState1.peerConnections =
      some { connId := 0, publicKey := some "pk" } ∧
    getEntry "p1" dupCallState2.peerConnections =
      some { connId := 1, publicKey := some "pk" } ∧
    dupCallState2 ≠ dupCallState1 := by
  refine ⟨?_, ?_, ?_⟩ <;> decide

/-- C8 (amended): a second `createPeerConnection` invocation for the
same peer id replaces the stored peer connection with a freshly
constructed one (a different connection identity) rather than leaving
the existing link unchanged; the map still holds the new entry under
the same key. -/
theorem duplicate_create_amended (st : VoiceState) (p : String)
    (pk1 pk2 : Option String) (i1 i2 : Bool) :
    getEntry p (createPeerConnection st p pk1 i1).peerConnections =
      some { connId := st.nextConnId, publicKey := pk1 } ∧
    getEntry p (createPeerConnection (createPeerConnection st p pk1 i1) p pk2 i2).peerConnections =
      some { connId := st.nextConnId + 1, publicKey := pk2 } ∧
    getEntry p (createPeerConnection (createPeerConnection st p pk1 i1) p pk2 i2).peerConnections ≠
      getEntry p (createPeerConnection st p pk1 i1).peerConnections := by
  have h1 := createPeerConnection_conns st p pk1 i1
  have h2 := createPeerConnection_conns (createPeerConnection st p pk1 i1) p pk2 i2
  refine ⟨?_, ?_, ?_⟩
  · rw [h1.1, getEntry_setEntry_self]
  · rw [h2.1, h1.2, getEntry_setEntry_self]
  · rw [h2.1, h1.2, h1.1, getEntry_setEntry_self, getEntry_setEntry_self]
    simp

/-- C9: after every invocation of the `onnegotiationneeded` handler —
whether descriptor generation and offer sending succeed
(`descrFails = false`) or throw (`descrFails = true`) — the
`makingOffer` flag is false: the reset sits in the `finally` block and
runs on both exit paths; an offer is emitted exactly when nothing
threw. -/
theorem makingOffer_reset (mgr : SigMgrState) (descrFails : Bool) :
    (onNegotiationNeeded mgr descrFails).1.makingOffer = false ∧
    (onNegotiationNeeded mgr descrFails).2 = !descrFails := by
  cases descrFails <;> simp [onNegotiationNeeded]

/-- C10: whenever a `key` message whose payload decrypts successfully
arrives on a peer's data channel — in ANY engine state, including one
where a session key is already stored for that peer — the handler
unconditionally overwrites the stored session key with the newly
unwrapped one, sends a `key-ack`, and adds the peer to
`secureChannels`; there is no guard against repeated or late key
messages. -/
theorem key_message_rekeys (decryptKey : List Nat → Option (List Nat))
    (aesDec : List Nat → List Nat → List Nat → Option (List Nat))
    (st : VoiceState) (p : String) (payload k : List Nat)
    (hdec : decryptKey payload = some k) :
    getEntry p (handleDataChannelMessage decryptKey aesDec st p (.key payload)).st.peerSessionKeys = some k ∧
    (handleDataChannelMessage decryptKey aesDec st p (.key payload)).ackSent = true ∧
    p ∈ (handleDataChannelMessage decryptKey aesDec st p (.key payload)).st.secureChannels := by
  simp only [handleDataChannelMessage, hdec]
  exact ⟨getEntry_setEntry_self p k st.peerSessionKeys, trivial,
    mem_addSet_self p st.secureChannels⟩

/-- Witness for C10: in `preAckState` peer `p1` already holds session
key `[7]`; a later `key` message carrying `[9]` re-keys the link to
`[9]`, an ACK is sent, and the channel is marked secure. -/
theorem key_message_rekeys_witness :
    getEntry "p1" preAckState.peerSessionKeys = some [7] ∧
    getEntry "p1" (handleDataChannelMessage some (fun _ _ c => some c) preAckState "p1" (.key [9])).st.peerSessionKeys = some [9] ∧
    (handleDataChannelMessage some (fun _ _ c => some c) preAckState "p1" (.key [9])).ackSent = true ∧
    "p1" ∈ (handleDataChannelMessage some (fun _ _ c => some c) preAckState "p1" (.key [9])).st.secureChannels :=
  ⟨by decide,
   key_message_rekeys some (fun _ _ c => some c) preAckState "p1" [9] [9] rfl⟩

/-- Witness for C5: an abstract cipher that appends a 16-byte tag, on
the plaintext `[3, 4]` with the all-zero nonce. -/
theorem aes_audio_roundtrip_witness :
    (List.replicate 12 0).length = 12 ∧
    decryptAudioAES (fun _ _ c => some (c.take (c.length - 16))) [1]
      (encryptAudioAES (fun _ _ p => p ++ List.replicate 16 0) [1]
        (List.replicate 12 0) [3, 4]) = some [3, 4] :=
  ⟨by decide,
   aes_audio_roundtrip (fun _ _ p => p ++ List.replicate 16 0)
     (fun _ _ c => some (c.take (c.length - 16))) [1] (List.replicate 12 0) [3, 4]
     (by decide) (by decide) (by decide)⟩

end VOIP
